import Mathlib

/-!
Verification of the TTTSpeedReader playback core.

Shallow embedding of the word-display playback engine of `src/index.tsx`:
the segmenter (`words` memo), the focus-point calculator (`getParts`), the
pace ramp calculator (`currentWpm`), the advance/loop logic (`next`), the
per-word delay of the speed-timer effect, the auto font-size estimator, and
the state-resetting event handlers.  JavaScript numbers are modelled as `ℚ`
(the arithmetic involved is exact), `Math.round x` as `⌊x + 1/2⌋`,
`Math.floor (len / 2.5)` on naturals as `2 * len / 5`, and strings as their
character lists where slicing is involved.
-/

namespace SpeedReader

/-! ## Segmenter: `text.trim().replace(/[\r\n]+/g, ' ').split(/\s+/)` -/

/-- ASCII whitespace recognised by `trim`, `\s` and `[\r\n]` in the source's
regexes (the inputs of interest contain only ASCII whitespace). -/
def isWs (c : Char) : Bool :=
  c = ' ' || c = '\t' || c = '\n' || c = '\r' || c = '\x0b' || c = '\x0c'

/-- Characters matched by the `[\r\n]` class. -/
def isCRLF (c : Char) : Bool :=
  c = '\r' || c = '\n'

/-- JavaScript `String.prototype.trim`: drop whitespace from both ends. -/
def trimWs (l : List Char) : List Char :=
  ((l.dropWhile isWs).reverse.dropWhile isWs).reverse

/-- The replacement `replace(/[\r\n]+/g, ' ')`: every maximal run of CR/LF
characters becomes a single space. -/
def collapseNL : List Char → List Char
  | [] => []
  | c :: rest =>
    match rest with
    | [] => if isCRLF c then [' '] else [c]
    | d :: _ =>
      if isCRLF c then
        if isCRLF d then collapseNL rest else ' ' :: collapseNL rest
      else c :: collapseNL rest

/-- JavaScript `split(/\s+/)` semantics: pieces between maximal
whitespace runs, keeping an empty piece at either end when the string
starts or ends with whitespace, and yielding `[""]` on the empty string.
`acc` holds the current piece reversed; `skipping` records that we are
inside a whitespace run. -/
def wsSplitAux : List Char → List Char → Bool → List (List Char)
  | [], acc, _ => [acc.reverse]
  | c :: rest, acc, skipping =>
    if isWs c then
      if skipping then wsSplitAux rest [] true
      else acc.reverse :: wsSplitAux rest [] true
    else wsSplitAux rest (c :: acc) false

/-- The `words` memo: `text.trim().replace(/[\r\n]+/g, ' ').split(/\s+/)`. -/
def segment (raw : String) : List String :=
  (wsSplitAux (collapseNL (trimWs raw.data)) [] false).map fun l => ⟨l⟩

/-! ## Focus-point calculator: `getParts` -/

/-- The record `{ pre, p, suf }` returned by `getParts`. -/
structure Parts where
  pre : String
  p : String
  suf : String
deriving DecidableEq, Repr

/-- The split position of `getParts`: `Math.floor(len / 2.5)` (equal to
`2 * len / 5` in natural division), overridden to `0` for `len ≤ 1` and to
`1` for `2 ≤ len ≤ 5`. -/
def orpPos (len : ℕ) : ℕ :=
  if len ≤ 1 then 0 else if len ≤ 5 then 1 else 2 * len / 5

/-- The function `getParts` from `src/index.tsx`. -/
def getParts (w : String) : Parts :=
  if w = "" then ⟨"", "", ""⟩
  else
    ⟨⟨w.data.take (orpPos w.length)⟩, ⟨(w.data.drop (orpPos w.length)).take 1⟩,
      ⟨w.data.drop (orpPos w.length + 1)⟩⟩

/-! ## Pace ramp calculator: `currentWpm` -/

/-- JavaScript `Math.round`: round half toward positive infinity. -/
def jround (q : ℚ) : ℤ :=
  ⌊q + 1 / 2⌋

/-- The `currentWpm` memo.  Arguments mirror the React state it reads:
`isRamping`, `wpm`, `startWpm`, `endWpm`, `loopEnabled`, `loopMax`,
`currentLoop`, `docLen` (= `words.length`) and `idx`. -/
def currentWpm (isRamping : Bool) (wpm startWpm endWpm : ℚ) (loopEnabled : Bool)
    (loopMax currentLoop docLen idx : ℕ) : ℚ :=
  if !isRamping then wpm
  else
    let progress : ℚ :=
      if decide (0 < loopMax) && loopEnabled then
        let totalWords : ℚ := (loopMax : ℚ) * (docLen : ℚ)
        let currentAbsoluteIdx : ℚ := ((currentLoop : ℚ) - 1) * (docLen : ℚ) + (idx : ℚ)
        currentAbsoluteIdx / max 1 (totalWords - 1)
      else (idx : ℚ) / max 1 ((docLen : ℚ) - 1)
    (jround (startWpm + (endWpm - startWpm) * min progress 1) : ℚ)

/-! ## Advance / loop logic: `next` -/

/-- The playback state touched by `next`: the word index, the playing flag,
the loop counter, and the audio position (`audioRef.current.currentTime`). -/
structure PState where
  idx : ℕ
  playing : Bool
  currentLoop : ℕ
  audioTime : ℚ
deriving DecidableEq, Repr

/-- The `next` callback.  At the boundary (`i >= words.length - 1`) it
either restarts at word 0 incrementing the loop counter, or stops playback
keeping the index where it is; both branches seek the audio to 0. -/
def next (loopEnabled : Bool) (loopMax docLen : ℕ) (s : PState) : PState :=
  if docLen - 1 ≤ s.idx then
    if loopEnabled && (decide (loopMax = 0) || decide (s.currentLoop < loopMax)) then
      { s with idx := 0, currentLoop := s.currentLoop + 1, audioTime := 0 }
    else
      { s with playing := false, audioTime := 0 }
  else
    { s with idx := s.idx + 1 }

/-- Iterate `next` a number of times (used to follow boundary ticks). -/
def iterNext (loopEnabled : Bool) (loopMax docLen : ℕ) : ℕ → PState → PState
  | 0, s => s
  | n + 1, s => iterNext loopEnabled loopMax docLen n (next loopEnabled loopMax docLen s)

/-! ## Speed-timer effect: per-word delay and scheduling guard -/

/-- Does the string end in one of the given characters?  Models the
regex tests `/[.!?]$/.test(word)` and `/[,;:]$/.test(word)`. -/
def endsInAny (w : String) (cs : List Char) : Bool :=
  match w.data.getLast? with
  | some c => cs.contains c
  | none => false

/-- The delay computed by the speed-timer effect:
`ms = 60000 / currentWpm`, times 2.2 for sentence punctuation, times 1.5
for clause punctuation. -/
def delayMs (w : String) (p : ℚ) : ℚ :=
  let ms := 60000 / p
  if endsInAny w (['.', '!', '?'] : List Char) then ms * (11 / 5)
  else if endsInAny w ([',', ';', ':'] : List Char) then ms * (3 / 2)
  else ms

/-- The guard under which the speed-timer effect schedules a timeout:
`playing && words.length > 0`. -/
def timerSchedules (playing : Bool) (ws : List String) : Bool :=
  playing && decide (0 < ws.length)

/-- The expression `words[idx] || ''`: the word handed to the delay computation and to
`getParts`; an out-of-range index (and an empty element) yield `""`. -/
def displayedWord (ws : List String) (i : ℕ) : String :=
  match ws[i]? with
  | some s => if s.isEmpty then "" else s
  | none => ""

/-- The parts rendered by the reader core: `getParts(words[idx] || '')`. -/
def displayedParts (ws : List String) (i : ℕ) : Parts :=
  getParts (displayedWord ws i)

/-! ## Auto font-size effect -/

/-- The reduction `words.reduce((a, b) => a.length > b.length ? a : b)`; the source only
calls it under `words.length > 0`, so the `[]` case is arbitrary. -/
def reduceLongest : List String → String
  | [] => ""
  | w :: rest => rest.foldl (fun a b => if b.length < a.length then a else b) w

/-- The font size computed by the auto-font-size effect:
`Math.min(Math.max(Math.floor((viewportWidth - 40) / (maxCharCount * 0.6)), 40), 200)`
with `maxCharCount = Math.max(longestWord.length, 5)`. -/
def autoFontSize (ws : List String) (viewportWidth : ℚ) : ℤ :=
  let longestWord := reduceLongest ws
  let maxCharCount : ℕ := max longestWord.length 5
  let calculatedSize : ℤ := ⌊(viewportWidth - 40) / ((maxCharCount : ℚ) * (3 / 5))⌋
  min (max calculatedSize 40) 200

/-! ## Event handlers that touch playback state -/

/-- The React state touched by the text / launch / OCR handlers. -/
structure AppState where
  text : String
  idx : ℕ
  currentLoop : ℕ
  playing : Bool
  showSettings : Bool
deriving DecidableEq, Repr

/-- The textarea `onChange` handler: `e => setText(e.target.value)`. -/
def onTextChange (s : AppState) (newText : String) : AppState :=
  { s with text := newText }

/-- The launch button handler:
`setShowSettings(false); setIdx(0); setCurrentLoop(1); setPlaying(true)`. -/
def onLaunch (s : AppState) : AppState :=
  { s with showSettings := false, idx := 0, currentLoop := 1, playing := true }

/-- The success path of the OCR handler:
`setText(res); setIdx(0); setCurrentLoop(1); setShowSettings(true)`. -/
def onOcrSuccess (s : AppState) (res : String) : AppState :=
  { s with text := res, idx := 0, currentLoop := 1, showSettings := true }

/-! ## Spec-side definitions (for refinement claims) -/

/-- Clamp a rational to `[0, 1]`, as in the spec's ramp description. -/
def specClamp01 (q : ℚ) : ℚ :=
  min (max q 0) 1

/-- Modelled from the spec's Pace Ramp Calculator (§4.4): global progress
over a bounded loop run when looping is enabled with `maxLoops > 0`,
local progress otherwise. -/
def specPace (startWpm endWpm : ℚ) (loopEnabled : Bool)
    (loopMax currentLoop docLen idx : ℕ) : ℚ :=
  if loopEnabled ∧ 0 < loopMax then
    (jround (startWpm + (endWpm - startWpm) *
      specClamp01 ((((currentLoop : ℚ) - 1) * (docLen : ℚ) + (idx : ℚ)) /
        max 1 ((loopMax : ℚ) * (docLen : ℚ) - 1))) : ℚ)
  else
    (jround (startWpm + (endWpm - startWpm) *
      ((idx : ℚ) / max 1 ((docLen : ℚ) - 1))) : ℚ)

/-- The punctuation factor as the spec's Delay Calculator (§4.3) words it:
2.2 for a word ending in `.`, `!`, `?`; 1.5 for `,`, `;`, `:`; else 1. -/
def specPunctFactor (w : String) : ℚ :=
  match w.data.getLast? with
  | some c =>
    if c = '.' ∨ c = '!' ∨ c = '?' then 11 / 5
    else if c = ',' ∨ c = ';' ∨ c = ':' then 3 / 2
    else 1
  | none => 1

/-- Length of a longest token (0 for an empty list). -/
def maxLen (ws : List String) : ℕ :=
  ws.foldr (fun w m => max w.length m) 0

/-! ## Helper lemmas -/

lemma orpPos_lt (len : ℕ) (h : 0 < len) : orpPos len < len := by
  unfold orpPos
  by_cases h1 : len ≤ 1
  · simpa [h1] using h
  · by_cases h2 : len ≤ 5
    · simp [h1, h2]; omega
    · simp [h1, h2]
      exact Nat.div_lt_of_lt_mul (by omega)

lemma parts_concat (l : List Char) (pos : ℕ) :
    (l.take pos ++ (l.drop pos).take 1) ++ l.drop (pos + 1) = l := by
  have h1 : l.drop (pos + 1) = (l.drop pos).drop 1 := by
    rw [List.drop_drop, Nat.add_comm]
  rw [h1, List.append_assoc, List.take_append_drop, List.take_append_drop]

lemma currentWpm_true (wpm s e : ℚ) (le : Bool) (lm cl dl i : ℕ) :
    currentWpm true wpm s e le lm cl dl i =
      (jround (s + (e - s) * min
        (if decide (0 < lm) && le then
          (((cl : ℚ) - 1) * (dl : ℚ) + (i : ℚ)) / max 1 ((lm : ℚ) * (dl : ℚ) - 1)
        else (i : ℚ) / max 1 ((dl : ℚ) - 1)) 1) : ℚ) := rfl

lemma iterNext_unbounded (n : ℕ) :
    ∀ c, iterNext true 0 1 n ⟨0, true, c, 0⟩ = ⟨0, true, c + n, 0⟩ := by
  induction n with
  | zero => intro c; rfl
  | succ k ih =>
    intro c
    have h : next true 0 1 ⟨0, true, c, 0⟩ = ⟨0, true, c + 1, 0⟩ := rfl
    show iterNext true 0 1 k (next true 0 1 ⟨0, true, c, 0⟩) = _
    rw [h, ih (c + 1)]
    congr 1
    omega

lemma foldl_longest_length (rest : List String) :
    ∀ a : String,
      (rest.foldl (fun a b => if b.length < a.length then a else b) a).length =
        max a.length (maxLen rest) := by
  induction rest with
  | nil => intro a; simp [maxLen]
  | cons b t ih =>
    intro a
    have hfl : ((if b.length < a.length then a else b)).length = max a.length b.length := by
      by_cases h : b.length < a.length
      · simp [h]; omega
      · simp [h]; omega
    calc ((b :: t).foldl (fun a b => if b.length < a.length then a else b) a).length
        = max (if b.length < a.length then a else b).length (maxLen t) := ih _
      _ = max (max a.length b.length) (maxLen t) := by rw [hfl]
      _ = max a.length (maxLen (b :: t)) := by
          show _ = max a.length (max b.length (maxLen t))
          omega

lemma reduceLongest_length (ws : List String) (h : ws ≠ []) :
    (reduceLongest ws).length = maxLen ws := by
  cases ws with
  | nil => exact absurd rfl h
  | cons w rest =>
    show (rest.foldl (fun a b => if b.length < a.length then a else b) w).length = _
    rw [foldl_longest_length rest w]
    rfl

/-! ## Claim theorems -/

/-- Claim C1, counterexample: at the last word with looping disabled, `next`
stops playback but does NOT reset the word index to 0 — it stays at
`docLen - 1` (here 2 for a 3-word document). -/
theorem c1_stop_keeps_index_cex :
    (next false 0 3 ⟨2, true, 1, 7⟩).playing = false ∧
    (next false 0 3 ⟨2, true, 1, 7⟩).idx ≠ 0 := by
  refine ⟨rfl, ?_⟩
  decide

/-- Claim C1, amended: when the advance step fires at the last word and
playback must stop (looping disabled, or bounded looping with the loop
count having reached the bound), the resulting state has `playing = false`
and the word index left unchanged at `docLen - 1`, with the audio seeked
to the start. -/
theorem c1_stop_branch (loopEnabled : Bool) (loopMax docLen : ℕ) (s : PState)
    (_hlen : 1 ≤ docLen) (hidx : s.idx = docLen - 1)
    (hstop : loopEnabled = false ∨ (0 < loopMax ∧ loopMax ≤ s.currentLoop)) :
    (next loopEnabled loopMax docLen s).playing = false ∧
    (next loopEnabled loopMax docLen s).idx = docLen - 1 ∧
    (next loopEnabled loopMax docLen s).audioTime = 0 := by
  have hb : docLen - 1 ≤ s.idx := le_of_eq hidx.symm
  have hcond :
      (loopEnabled && (decide (loopMax = 0) || decide (s.currentLoop < loopMax))) = false := by
    rcases hstop with h | ⟨h1, h2⟩
    · simp [h]
    · simp
      intro
      omega
  simp [next, hb, hcond, hidx]

/-- Witness for the amended Claim C1 at a concrete stopping state. -/
theorem c1_stop_branch_witness :
    (next true 2 4 ⟨3, true, 2, 5⟩).playing = false ∧
    (next true 2 4 ⟨3, true, 2, 5⟩).idx = 3 ∧
    (next true 2 4 ⟨3, true, 2, 5⟩).audioTime = 0 :=
  c1_stop_branch true 2 4 ⟨3, true, 2, 5⟩ (by decide) (by decide)
    (Or.inr ⟨by decide, by decide⟩)

/-- Claim C2: with ramping on, the pace equals the spec formula — global
clamped progress when looping is enabled with a positive loop bound, local
progress otherwise; the two quoted instances evaluate to 100 and 300 wpm;
with ramping off the pace is the base wpm unconditionally. -/
theorem c2_ramp_formula :
    (∀ (wpm startWpm endWpm : ℚ) (loopEnabled : Bool) (loopMax currentLoop docLen idx : ℕ),
        1 ≤ docLen → 1 ≤ currentLoop → idx + 1 ≤ docLen →
        currentWpm true wpm startWpm endWpm loopEnabled loopMax currentLoop docLen idx =
          specPace startWpm endWpm loopEnabled loopMax currentLoop docLen idx) ∧
    currentWpm true 0 100 300 true 2 1 10 0 = 100 ∧
    currentWpm true 0 100 300 true 2 2 10 9 = 300 ∧
    (∀ (wpm startWpm endWpm : ℚ) (loopEnabled : Bool) (loopMax currentLoop docLen idx : ℕ),
        currentWpm false wpm startWpm endWpm loopEnabled loopMax currentLoop docLen idx = wpm) := by
  refine ⟨?_, by norm_num [currentWpm, jround], by norm_num [currentWpm, jround],
    fun _ _ _ _ _ _ _ _ => rfl⟩
  intro wpm s e le lm cl dl i _hdl hcl hi
  by_cases hg : le = true ∧ 0 < lm
  · have hcondT : (decide (0 < lm) && le) = true := by simp [hg.1, hg.2]
    rw [currentWpm_true, if_pos hcondT, specPace, if_pos hg]
    have h1 : (1 : ℚ) ≤ (cl : ℚ) := by exact_mod_cast hcl
    have hnum : (0 : ℚ) ≤ ((cl : ℚ) - 1) * (dl : ℚ) + (i : ℚ) :=
      add_nonneg (mul_nonneg (by linarith) (Nat.cast_nonneg dl)) (Nat.cast_nonneg i)
    have hden : (0 : ℚ) ≤ max 1 ((lm : ℚ) * (dl : ℚ) - 1) :=
      le_trans zero_le_one (le_max_left _ _)
    have hp := div_nonneg hnum hden
    rw [specClamp01, max_eq_left hp]
  · have hcondF : (decide (0 < lm) && le) = false := by
      cases le with
      | false => simp
      | true =>
        have hlm : ¬ 0 < lm := fun h => hg ⟨rfl, h⟩
        have h0 : lm = 0 := by omega
        subst h0
        simp
    rw [currentWpm_true, specPace, if_neg hg]
    rw [if_neg (by rw [hcondF]; exact Bool.false_ne_true)]
    have hiq : (i : ℚ) ≤ max 1 ((dl : ℚ) - 1) := by
      have : ((i : ℚ) + 1) ≤ (dl : ℚ) := by exact_mod_cast hi
      exact le_trans (by linarith) (le_max_right _ _)
    have hdpos : (0 : ℚ) < max 1 ((dl : ℚ) - 1) :=
      lt_of_lt_of_le zero_lt_one (le_max_left _ _)
    rw [min_eq_left ((div_le_one hdpos).mpr hiq)]

/-- Witness for Claim C2 at a concrete in-range position. -/
theorem c2_ramp_formula_witness :
    currentWpm true 0 100 300 true 2 1 10 3 = specPace 100 300 true 2 1 10 3 :=
  c2_ramp_formula.1 0 100 300 true 2 1 10 3 (by decide) (by decide) (by decide)

/-- Claim C3, failing evaluation: with ramping on and both `startWpm` and
`endWpm` misconfigured to 0, the computed pace is 0, not floored at 1 wpm
— the code has no positivity clamp. -/
theorem c3_pace_not_floored :
    currentWpm true 350 0 0 false 3 1 5 2 = 0 ∧
    ¬(1 ≤ currentWpm true 350 0 0 false 3 1 5 2) := by
  norm_num [currentWpm, jround]

/-- Claim C4, failing evaluation: an all-whitespace input segments to the
single empty token, yet the speed-timer guard (`playing && words.length > 0`)
still fires on it — the empty document does not suppress scheduling. -/
theorem c4_empty_doc_schedules :
    segment "  \t\r\n  " = [""] ∧
    timerSchedules true (segment "  \t\r\n  ") = true := by
  constructor
  · decide
  · decide

/-- Claim C5, counterexample: replacing the raw text through the textarea
handler leaves the word index (and loop count) untouched, so an index of 5
survives a change to a one-word document and is out of range. -/
theorem c5_text_edit_no_reset_cex :
    (onTextChange ⟨"one two three four five six", 5, 2, false, true⟩ "hi").idx ≠ 0 ∧
    ¬((onTextChange ⟨"one two three four five six", 5, 2, false, true⟩ "hi").idx <
        (segment (onTextChange ⟨"one two three four five six", 5, 2, false, true⟩ "hi").text).length) := by
  constructor
  · decide
  · decide

/-- Claim C5, amended: launching a session and a successful OCR load reset
`wordIndex` to 0 and `loopCount` to 1, but a textarea edit changes only the
text and leaves both unchanged. -/
theorem c5_reset_on_launch_and_ocr :
    (∀ s : AppState, (onLaunch s).idx = 0 ∧ (onLaunch s).currentLoop = 1 ∧
      (onLaunch s).playing = true) ∧
    (∀ (s : AppState) (r : String), (onOcrSuccess s r).idx = 0 ∧
      (onOcrSuccess s r).currentLoop = 1) ∧
    (∀ (s : AppState) (t : String), (onTextChange s t).idx = s.idx ∧
      (onTextChange s t).currentLoop = s.currentLoop) :=
  ⟨fun _ => ⟨rfl, rfl, rfl⟩, fun _ _ => ⟨rfl, rfl⟩, fun _ _ => ⟨rfl, rfl⟩⟩

/-- Claim C6: the per-word delay is `60000 / pace` times exactly one factor
determined by the last character (2.2 for sentence punctuation, 1.5 for
clause punctuation, 1 otherwise), and the three quoted instances hold. -/
theorem c6_delay_factor :
    (∀ (w : String) (p : ℚ), 0 < p → delayMs w p = 60000 / p * specPunctFactor w) ∧
    delayMs "end." 300 = 440 ∧ delayMs "wait," 300 = 300 ∧ delayMs "go" 300 = 200 := by
  refine ⟨?_, by norm_num [delayMs, endsInAny],
    by norm_num [delayMs, endsInAny]; decide,
    by norm_num [delayMs, endsInAny]; decide⟩
  intro w p _hp
  unfold delayMs endsInAny specPunctFactor
  cases hw : w.data.getLast? with
  | none => simp
  | some c =>
    simp only
    by_cases h1 : c = '.' ∨ c = '!' ∨ c = '?'
    · have hc1 : (['.', '!', '?'] : List Char).contains c = true := by
        rcases h1 with h | h | h <;> simp [h]
      simp [hc1, h1]
    · have hc1 : (['.', '!', '?'] : List Char).contains c = false := by
        simp
        tauto
      by_cases h2 : c = ',' ∨ c = ';' ∨ c = ':'
      · have hc2 : ([',', ';', ':'] : List Char).contains c = true := by
          rcases h2 with h | h | h <;> simp [h]
        simp [hc1, hc2, h1, h2]
      · have hc2 : ([',', ';', ':'] : List Char).contains c = false := by
          simp
          tauto
        simp [hc1, hc2, h1, h2]

/-- Witness for Claim C6 at a concrete word and positive pace. -/
theorem c6_delay_factor_witness : delayMs "hey" 300 = 60000 / 300 * specPunctFactor "hey" :=
  c6_delay_factor.1 "hey" 300 (by norm_num)

/-- Claim C7: the focus-point split reassembles to the word, the focus is
empty exactly for the empty word, and the three quoted instances hold. -/
theorem c7_focus_point :
    (∀ w : String,
        (getParts w).pre ++ (getParts w).p ++ (getParts w).suf = w ∧
        ((getParts w).p = "" ↔ w = "")) ∧
    getParts "a" = ⟨"", "a", ""⟩ ∧ getParts "cat" = ⟨"c", "a", "t"⟩ ∧
    getParts "reading" = ⟨"re", "a", "ding"⟩ := by
  refine ⟨?_, by decide, by decide, by decide⟩
  intro w
  obtain ⟨l⟩ := w
  by_cases hl : l = []
  · subst hl
    exact ⟨rfl, by constructor <;> intro <;> rfl⟩
  · have hne : (⟨l⟩ : String) ≠ "" := fun h => hl (congrArg String.data h)
    have hlen : (⟨l⟩ : String).length = l.length := rfl
    simp only [getParts, if_neg hne]
    constructor
    · show String.mk ((l.take _ ++ (l.drop _).take 1) ++ l.drop _) = String.mk l
      exact congrArg String.mk (parts_concat l _)
    · constructor
      · intro hfoc
        exfalso
        have hdata : (l.drop (orpPos (⟨l⟩ : String).length)).take 1 = [] :=
          congrArg String.data hfoc
        have hpos : orpPos l.length < l.length := orpPos_lt _ (List.length_pos.mpr hl)
        rw [hlen] at hdata
        rcases List.take_eq_nil_iff.mp hdata with h | h
        · omega
        · have := List.drop_eq_nil_iff.mp h
          omega
      · intro h
        exact absurd h hne

/-- Claim C8, counterexample: with `maxLoops = 3` on a one-word document
(every tick is a boundary tick), playback is already stopped after the
THIRD boundary tick, not still playing until a fourth. -/
theorem c8_third_boundary_stops_cex :
    ¬((iterNext true 3 1 3 ⟨0, true, 1, 0⟩).playing = true) := by
  decide

/-- Claim C8, amended: with `maxLoops = 3` the first two boundary ticks
increment the loop count 1→2→3 and the third stops playback; with
`maxLoops = 0` a boundary tick always keeps playing and increments the
loop count, so playback never stops on its own. -/
theorem c8_loop_boundaries :
    iterNext true 3 1 1 ⟨0, true, 1, 0⟩ = ⟨0, true, 2, 0⟩ ∧
    iterNext true 3 1 2 ⟨0, true, 1, 0⟩ = ⟨0, true, 3, 0⟩ ∧
    (iterNext true 3 1 3 ⟨0, true, 1, 0⟩).playing = false ∧
    (∀ n : ℕ, iterNext true 0 1 n ⟨0, true, 1, 0⟩ = ⟨0, true, 1 + n, 0⟩) ∧
    (∀ (docLen : ℕ) (s : PState), docLen ≤ s.idx + 1 →
      (next true 0 docLen s).playing = s.playing ∧
      (next true 0 docLen s).currentLoop = s.currentLoop + 1 ∧
      (next true 0 docLen s).idx = 0) := by
  refine ⟨by decide, by decide, by decide, fun n => iterNext_unbounded n 1, ?_⟩
  intro docLen s h
  have hb : docLen - 1 ≤ s.idx := by omega
  simp [next, hb]

/-- Witness for the amended Claim C8 at a concrete boundary state. -/
theorem c8_loop_boundaries_witness :
    (next true 0 2 ⟨1, true, 5, 0⟩).playing = true ∧
    (next true 0 2 ⟨1, true, 5, 0⟩).currentLoop = 6 := by
  have h := c8_loop_boundaries.2.2.2.2 2 ⟨1, true, 5, 0⟩ (by decide)
  exact ⟨h.1, h.2.1⟩

/-- Claim C9: for a non-empty word list the auto-scale estimate is the
clamped floor formula over the longest token length, always lies in
`[40, 200]`, and the quoted instance gives 44. -/
theorem c9_auto_scale :
    (∀ (ws : List String) (vw : ℚ), ws ≠ [] →
        autoFontSize ws vw =
          min (max (⌊(vw - 40) / ((max (maxLen ws) 5 : ℕ) * (3 / 5) : ℚ)⌋) 40) 200 ∧
        40 ≤ autoFontSize ws vw ∧ autoFontSize ws vw ≤ 200) ∧
    autoFontSize ["configuration"] 390 = 44 := by
  constructor
  · intro ws vw h
    refine ⟨?_, ?_, ?_⟩
    · simp only [autoFontSize]
      rw [reduceLongest_length ws h]
    · exact le_min (le_max_right _ _) (by norm_num)
    · exact min_le_right _ _
  · have h : ("configuration" : String).length = 13 := by decide
    norm_num [autoFontSize, reduceLongest, h]

/-- Witness for Claim C9 at a concrete non-empty document. -/
theorem c9_auto_scale_witness :
    autoFontSize ["hi"] 500 =
      min (max (⌊((500 : ℚ) - 40) / ((max (maxLen ["hi"]) 5 : ℕ) * (3 / 5) : ℚ)⌋) 40) 200 ∧
    40 ≤ autoFontSize ["hi"] 500 ∧ autoFontSize ["hi"] 500 ≤ 200 :=
  c9_auto_scale.1 ["hi"] 500 (by decide)

/-- Claim C10: the rendered parts are `getParts` of the indexed word with
an empty-string fallback, and an out-of-range index yields three empty
parts — the derivation is total. -/
theorem c10_render_total :
    (∀ (ws : List String) (i : ℕ), displayedParts ws i = getParts (ws.getD i "")) ∧
    (∀ (ws : List String) (i : ℕ), ws.length ≤ i → displayedParts ws i = ⟨"", "", ""⟩) := by
  have key : ∀ (ws : List String) (i : ℕ), displayedWord ws i = ws.getD i "" := by
    intro ws i
    unfold displayedWord
    cases h : ws[i]? with
    | none => rw [List.getD_eq_getElem?_getD, h]; rfl
    | some s =>
      rw [List.getD_eq_getElem?_getD, h]
      by_cases hs : s.isEmpty
      · simp [hs, (String.isEmpty_iff s).mp hs]
      · simp [hs]
  constructor
  · intro ws i
    unfold displayedParts
    rw [key]
  · intro ws i h
    unfold displayedParts
    rw [key, List.getD_eq_getElem?_getD, List.getElem?_eq_none h]
    rfl

/-- Witness for Claim C10 at a concrete out-of-range index. -/
theorem c10_render_total_witness : displayedParts ["hi"] 3 = ⟨"", "", ""⟩ :=
  c10_render_total.2 ["hi"] 3 (by decide)

end SpeedReader
